import Mathlib

/-!
# Verification of the sb-traefik-http-provider discovery core

Shallow embedding of `src/app/core/provider.py` (label translation, config
building, discovery, caching, debouncing) and `src/app/core/health_checker.py`
(health FSM, monitor-set reconciliation), with theorems settling the frozen
claims about the natural-language specification.

Python dictionaries are modelled as association lists in insertion order:
assignment `d[k] = v` is `upsert` (replace the value at the first occurrence
of `k`, else append), and `d.get(k)` is `List.lookup`.  Machine integers in
the sources are plain Python ints (no overflow), so `Nat` is used directly.
-/

namespace SbTraefik

/-- Python dict assignment `d[k] = v` on an insertion-ordered association
list: replace the value at an existing key, else append at the end. -/
def upsert {α : Type} (l : List (String × α)) (k : String) (v : α) :
    List (String × α) :=
  match l with
  | [] => [(k, v)]
  | (k0, v0) :: rest =>
    if k0 = k then (k0, v) :: rest else (k0, v0) :: upsert rest k v

theorem lookup_upsert_self {α : Type} (l : List (String × α)) (k : String) (v : α) :
    List.lookup k (upsert l k v) = some v := by
  induction l with
  | nil => simp [upsert, List.lookup]
  | cons p rest ih =>
    obtain ⟨k0, v0⟩ := p
    by_cases h : k0 = k
    · simp [upsert, h, List.lookup]
    · simp only [upsert, if_neg h, List.lookup]
      have : (k == k0) = false := by
        simp [beq_iff_eq]; exact fun hk => h hk.symm
      simp [this, ih]

theorem lookup_upsert_ne {α : Type} (l : List (String × α)) (k k1 : String) (v : α)
    (h : k1 ≠ k) : List.lookup k1 (upsert l k v) = List.lookup k1 l := by
  induction l with
  | nil =>
    have hb : (k1 == k) = false := by simp [beq_iff_eq]; exact h
    simp [upsert, List.lookup, hb]
  | cons p rest ih =>
    obtain ⟨k0, v0⟩ := p
    by_cases h0 : k0 = k
    · subst h0
      have hb : (k1 == k0) = false := by simp [beq_iff_eq]; exact h
      simp [upsert, List.lookup, hb]
    · simp only [upsert, if_neg h0, List.lookup, ih]

theorem lookup_upsert_isSome {α : Type} (l : List (String × α)) (k k1 : String)
    (v : α) (h : (List.lookup k1 l).isSome) :
    (List.lookup k1 (upsert l k v)).isSome := by
  by_cases hk : k1 = k
  · subst hk; simp [lookup_upsert_self]
  · rwa [lookup_upsert_ne l k k1 v hk]

/-- Python `str.strip(c)`: remove leading and trailing occurrences of `c`. -/
def pyStrip (c : Char) (s : String) : String :=
  String.mk (((s.data.dropWhile (· = c)).reverse.dropWhile (· = c)).reverse)

example : pyStrip '/' "/uptime-kuma" = "uptime-kuma" := by decide
example : pyStrip '/' "//a//" = "a" := by decide

/-- Whether `p` is a prefix of `l` (character lists). -/
def startsWithChars : List Char → List Char → Bool
  | [], _ => true
  | _ :: _, [] => false
  | a :: as, b :: bs => a = b && startsWithChars as bs

/-- Python `s.startswith(p)` over code points. -/
def strStartsWith (p s : String) : Bool :=
  startsWithChars p.data s.data

/-- Python `s[n:]` over code points. -/
def strDrop (s : String) (n : Nat) : String :=
  String.mk (s.data.drop n)

/-- Longest prefix of `s` whose characters satisfy `p` (the `\d+` part of
the label regex is matched this way). -/
def strTakeWhile (s : String) (p : Char → Bool) : String :=
  String.mk (s.data.takeWhile p)

/-- Whether `p` occurs contiguously inside `l` (character lists). -/
def isInfixChars (p : List Char) : List Char → Bool
  | [] => startsWithChars p []
  | c :: rest => startsWithChars p (c :: rest) || isInfixChars p rest

/-- ASCII lowercase of one character (`str.lower()` restricted to the ASCII
range; the error strings classified by the provider are ASCII). -/
def lowerChar (c : Char) : Char :=
  if 'A' ≤ c ∧ c ≤ 'Z' then Char.ofNat (c.toNat + 32) else c

/-- Case-insensitive containment test used by the host failure classifier
(`'timeout' in error_msg.lower()`): substring test after lowercasing. -/
def containsSub (needle haystack : String) : Bool :=
  isInfixChars (needle.data.map lowerChar) (haystack.data.map lowerChar)

example : containsSub "timeout" "Connection TIMEOUT after 5s" = true := by decide
example : containsSub "auth" "connection refused" = false := by decide

/-! ## Health checker (`src/app/core/health_checker.py`)

`ServiceHealth` keeps the fields of the Python class that the claims are
about; the wall-clock timestamp fields (`last_check`, `last_success`,
`last_failure`) are real-time side effects and are not modelled. -/

/-- `HealthStatus` enum. -/
inductive HealthStatus where
  | unknown
  | up
  | down
  | degraded
  deriving DecidableEq, Repr

/-- State tracked per monitored service (`ServiceHealth.__init__`). -/
structure ServiceHealth where
  serviceName : String
  healthUrl : String
  status : HealthStatus := .unknown
  responseTimeMs : Option Nat := none
  consecutiveFailures : Nat := 0
  consecutiveSuccesses : Nat := 0
  errorMessage : Option String := none
  httpStatus : Option Nat := none
  deriving DecidableEq, Repr

/-- `ServiceHealth(service_name, health_url)`: fresh entry in UNKNOWN. -/
def mkServiceHealth (name url : String) : ServiceHealth :=
  { serviceName := name, healthUrl := url }

/-- Outcome of one HTTP probe of a backend: either a response with an HTTP
status and elapsed milliseconds, or an exception (timeout / connection
error), carrying the error text used for `error_message`. -/
inductive ProbeResult where
  | response (httpStatus : Nat) (elapsedMs : Nat)
  | failure (error : String)
  deriving DecidableEq, Repr

/-- `HealthChecker._handle_failure`: bump consecutive failures, reset
successes; DOWN once failures reach `failure_threshold`, else a transient
UP becomes DEGRADED. -/
def handleFailure (failureThreshold : Nat) (h : ServiceHealth) (error : String) :
    ServiceHealth :=
  let cf := h.consecutiveFailures + 1
  { h with
    consecutiveFailures := cf
    consecutiveSuccesses := 0
    errorMessage := some error
    status :=
      if failureThreshold ≤ cf then .down
      else if h.status = .up then .degraded
      else h.status }

/-- `HealthChecker._check_service` body: a response below 400 (or 401/403)
is a success — DEGRADED when slower than `degraded_threshold_ms`, else UP —
anything else goes through `_handle_failure`. -/
def checkService (degradedThresholdMs failureThreshold : Nat)
    (h : ServiceHealth) (r : ProbeResult) : ServiceHealth :=
  match r with
  | .response st elapsed =>
    let h1 := { h with responseTimeMs := some elapsed, httpStatus := some st }
    if st < 400 ∨ st = 401 ∨ st = 403 then
      { h1 with
        consecutiveFailures := 0
        consecutiveSuccesses := h1.consecutiveSuccesses + 1
        errorMessage := none
        status := if degradedThresholdMs < elapsed then .degraded else .up }
    else
      handleFailure failureThreshold h1 ("HTTP " ++ toString st)
  | .failure e => handleFailure failureThreshold h e

/-- A sequence of probes applied to one service's health state. -/
def runProbes (degradedThresholdMs failureThreshold : Nat)
    (h : ServiceHealth) (rs : List ProbeResult) : ServiceHealth :=
  rs.foldl (checkService degradedThresholdMs failureThreshold) h

/-- Whether a probe outcome is classified as a success by `_check_service`. -/
def isSuccess (r : ProbeResult) : Bool :=
  match r with
  | .response st _ => st < 400 || st = 401 || st = 403
  | .failure _ => false

/-! ## Label translator (`TraefikProvider.extract_snadboy_revp_labels`)

Container snapshots and inspect details carry only the fields the provider
reads.  `details` is `Option Detail`: `inspect_container` returns `{}` on
failure and `build_traefik_config` skips such entries (`if not details:
continue`); `none` stands for that empty dict. -/

/-- The `Names` field of a `docker ps` entry as the provider tolerates it:
a list of names, a single string, or something else entirely
(`build_traefik_config` lines 377-382). -/
inductive NamesField where
  | arr (l : List String)
  | str (s : String)
  | other
  deriving DecidableEq, Repr

/-- Container snapshot fields read by the builder and the exclusion
tracker.  `namesField = none` models the `Names` key being absent
(`container.get('Names', default)`). -/
structure Container where
  namesField : Option NamesField := some (.arr ["/unknown"])
  id : String := ""
  image : String := ""
  status : String := ""
  state : String := "unknown"
  created : Option String := none
  deriving DecidableEq, Repr

/-- One element of a `NetworkSettings.Ports` binding list; `hostPort = none`
models an entry without a `HostPort` key. -/
structure PortBinding where
  hostPort : Option String
  deriving DecidableEq, Repr

/-- The parts of `docker inspect` output the builder reads:
`Config.Labels` (possibly `null`, modelled `none`) and
`NetworkSettings.Ports` (port spec string, e.g. `"3001/tcp"`, mapped to a
possibly-empty binding list). -/
structure Detail where
  labels : Option (List (String × String)) := some []
  ports : List (String × List PortBinding) := []
  deriving DecidableEq, Repr

/-- One element of the `containers_data` list fed to
`build_traefik_config`. -/
structure ContainerData where
  container : Container
  details : Option Detail
  sourceHost : String
  deriving DecidableEq, Repr

/-- Container-name extraction in `build_traefik_config` (lines 373-382):
`container.get('Names', ['/unknown'])`, first element stripped of `/` when
a list, stripped when a string, `'unknown'` otherwise. -/
def containerNameOf (c : Container) : String :=
  match c.namesField.getD (.arr ["/unknown"]) with
  | .arr l =>
    match l with
    | [] => "unknown"
    | s :: _ => pyStrip '/' s
  | .str s => pyStrip '/' s
  | .other => "unknown"

/-- Name extraction in `track_excluded_container` (lines 920-926):
`container.get('Names', container.get('Name', ''))`; the absent-key
fallback is the empty string (the model carries no separate `Name` key). -/
def excludedNameOf (c : Container) : String :=
  match c.namesField.getD (.str "") with
  | .arr l =>
    match l with
    | [] => "unknown"
    | s :: _ => pyStrip '/' s
  | .str s => pyStrip '/' s
  | .other => "unknown"

/-- A record of `self.excluded_containers`.  The free-text `details` string
is carried as built by the source (for the label-list variant the Python
`repr` quoting of each label name is not reproduced; no claim reads it). -/
structure ExcludedRecord where
  id : String
  name : String
  image : String
  status : String
  state : String
  created : Option String
  reason : String
  host : String
  details : Option String
  deriving DecidableEq, Repr

/-- `track_excluded_container`. -/
def trackExcludedContainer (c : Container) (reason host : String)
    (details : Option String) : ExcludedRecord :=
  { id := c.id, name := excludedNameOf c, image := c.image,
    status := c.status, state := c.state, created := c.created,
    reason := reason, host := host, details := details }

/-- A record of `self.label_parsing_errors`
(`track_label_parsing_error`). -/
structure LabelError where
  container : String
  label : String
  error : String
  deriving DecidableEq, Repr

/-- Per-pass diagnostic buffers of the provider that the builder appends
to. -/
structure BuildState where
  excludedContainers : List ExcludedRecord := []
  labelParsingErrors : List LabelError := []
  deriving DecidableEq, Repr

/-- Key match against `^snadboy\.revp\.(\d+)\.(.+)$`: the literal prefix,
one or more digits, a dot, then a non-empty setting name.  (`\d` and `.`
are modelled on ASCII text, which covers every label the provider
documents.) -/
def parseRevpKey (k : String) : Option (String × String) :=
  let pre := "snadboy.revp."
  if strStartsWith pre k then
    let rest := strDrop k pre.length
    let port := strTakeWhile rest Char.isDigit
    let tail := strDrop rest port.length
    if port ≠ "" ∧ strStartsWith "." tail ∧ strDrop tail 1 ≠ "" then
      some (port, strDrop tail 1)
    else none
  else none

example : parseRevpKey "snadboy.revp.3001.domain" = some ("3001", "domain") := by decide
example : parseRevpKey "snadboy.revp.3001.backend-path" = some ("3001", "backend-path") := by decide
example : parseRevpKey "snadboy.revp.domain" = none := by decide
example : parseRevpKey "snadboy.revp.3001." = none := by decide
example : parseRevpKey "other.label" = none := by decide

/-- The `port_configs` grouping loop of `extract_snadboy_revp_labels`:
ports in first-occurrence order, settings per port in insertion order with
later duplicates overwriting. -/
def groupPortConfigs (labels : List (String × String)) :
    List (String × List (String × String)) :=
  labels.foldl
    (fun acc kv =>
      match parseRevpKey kv.1 with
      | none => acc
      | some (port, setting) =>
        match List.lookup port acc with
        | none => acc ++ [(port, [(setting, kv.2)])]
        | some cfg => upsert acc port (upsert cfg setting kv.2))
    []

/-- Parsed per-port route intent
(`revp_config['services'][service_name]`). -/
structure SvcCfg where
  domain : String
  serviceUrl : String
  internalPort : String
  externalPort : String
  httpsEnabled : Bool
  redirectHttps : Bool
  certResolver : String
  deriving DecidableEq, Repr

/-- `revp_config` as returned by `extract_snadboy_revp_labels`. -/
structure RevpConfig where
  enabled : Bool
  services : List (String × SvcCfg)
  deriving DecidableEq, Repr

/-- The label-parse-error record appended when a port group has no
`domain` label. -/
def missingDomainError (containerName port : String) : LabelError :=
  { container := containerName,
    label := "snadboy.revp." ++ port ++ ".*",
    error := "Missing required 'domain' label for port " ++ port }

/-- Python truthiness of `config.get('https', 'true').lower() == 'true'`
on the raw label value: ASCII lowercase then compare. -/
def labelBool (v : Option String) : Bool :=
  String.mk (((v.getD "true").data.map lowerChar)) = "true"

/-- `extract_snadboy_revp_labels`, with `self._get_ssh_hostname` (a lookup
in the hosts YAML file) supplied as the `resolver` parameter and the
appended `label_parsing_errors` returned alongside the result. -/
def extractSnadboyRevpLabels (resolver : String → String)
    (labels : List (String × String)) (containerName host : String)
    (portMappings : List (String × String)) : RevpConfig × List LabelError :=
  let resolvedHostname := resolver host
  let portConfigs := groupPortConfigs labels
  if portConfigs = [] then ({ enabled := false, services := [] }, [])
  else
    let out := portConfigs.foldl
      (fun (acc : List (String × SvcCfg) × List LabelError) pc =>
        let port := pc.1
        let cfg := pc.2
        match List.lookup "domain" cfg with
        | none => (acc.1, acc.2 ++ [missingDomainError containerName port])
        | some d =>
          if d = "" then
            (acc.1, acc.2 ++ [missingDomainError containerName port])
          else
            let externalPort := (List.lookup (port ++ "/tcp") portMappings).getD port
            let backendProto := (List.lookup "backend-proto" cfg).getD "http"
            let rawPath := (List.lookup "backend-path" cfg).getD "/"
            let backendPath := if strStartsWith "/" rawPath then rawPath else "/" ++ rawPath
            let httpsEnabled := labelBool (List.lookup "https" cfg)
            let redirectHttps := labelBool (List.lookup "redirect-https" cfg)
            let certResolver := (List.lookup "https-certresolver" cfg).getD "letsencrypt"
            let serviceName := containerName ++ "-" ++ port
            let serviceUrl :=
              backendProto ++ "://" ++ resolvedHostname ++ ":" ++ externalPort ++ backendPath
            (upsert acc.1 serviceName
              { domain := d, serviceUrl := serviceUrl, internalPort := port,
                externalPort := externalPort, httpsEnabled := httpsEnabled,
                redirectHttps := redirectHttps, certResolver := certResolver },
             acc.2))
      ([], [])
    ({ enabled := true, services := out.1 }, out.2)

/-! ## Config builder (`TraefikProvider.build_traefik_config`) -/

/-- A router of the routing document: `rule`, `service`, `entryPoints`,
optional `middlewares` list, and whether a `tls: {}` key is present. -/
structure Router where
  rule : String
  service : String
  entryPoints : List String
  middlewares : Option (List String) := none
  tls : Bool := false
  deriving DecidableEq, Repr

/-- A service: `loadBalancer.servers` always holds exactly one `{url}`. -/
structure Service where
  url : String
  deriving DecidableEq, Repr

/-- The only middleware shape the provider emits:
`redirectScheme: {scheme, permanent}`. -/
structure Middleware where
  scheme : String := "https"
  permanent : Bool := true
  deriving DecidableEq, Repr

/-- The `http` section of the routing document.  `middlewares` is attached
only when non-empty (`if middlewares: config['http']['middlewares'] = ...`),
so it is an `Option`. -/
structure HttpConfig where
  routers : List (String × Router) := []
  services : List (String × Service) := []
  middlewares : Option (List (String × Middleware)) := none
  deriving DecidableEq, Repr

/-- Mutable accumulator of the build loop: the growing `http` section, the
separately-tracked `middlewares` dict, and the diagnostic buffers. -/
structure BuildAcc where
  routers : List (String × Router) := []
  services : List (String × Service) := []
  middlewares : List (String × Middleware) := []
  st : BuildState := {}
  deriving DecidableEq, Repr

/-- The three router shapes shared verbatim by the container branch
(lines 452-509) and the static-route branch (lines 553-610): given the
already-created service name, the domain and the `(https, redirect)` pair,
add the routers (and the redirect middleware, in shape A) to the
accumulator. -/
def emitRouteShape (acc : BuildAcc) (serviceName domain : String)
    (httpsEnabled redirectHttps : Bool) : BuildAcc :=
  let rule := "Host(`" ++ domain ++ "`)"
  let httpsRouter : Router :=
    { rule := rule, service := serviceName, entryPoints := ["websecure"], tls := true }
  let plainHttpRouter : Router :=
    { rule := rule, service := serviceName, entryPoints := ["web"] }
  if httpsEnabled && redirectHttps then
    let acc := { acc with
      routers := upsert acc.routers (serviceName ++ "-https-router") httpsRouter }
    let redirectName := serviceName ++ "-redirect-https"
    let redirectMw : Middleware := { scheme := "https", permanent := true }
    let acc := { acc with
      middlewares := upsert acc.middlewares redirectName redirectMw }
    let redirectingHttpRouter : Router :=
      { rule := rule, service := serviceName, entryPoints := ["web"],
        middlewares := some [redirectName] }
    { acc with
      routers := upsert acc.routers (serviceName ++ "-http-router") redirectingHttpRouter }
  else if httpsEnabled && !redirectHttps then
    let acc := { acc with
      routers := upsert acc.routers (serviceName ++ "-http-router") plainHttpRouter }
    { acc with
      routers := upsert acc.routers (serviceName ++ "-https-router") httpsRouter }
  else
    { acc with
      routers := upsert acc.routers (serviceName ++ "-http-router") plainHttpRouter }

/-- The `port_mappings` dict extracted from `NetworkSettings.Ports`
(lines 409-414): first binding's `HostPort`, defaulting to the internal
port number (`internal_port.split('/')[0]`). -/
def buildPortMappings (ports : List (String × List PortBinding)) :
    List (String × String) :=
  ports.foldl
    (fun acc ip =>
      match ip.2 with
      | [] => acc
      | m :: _ =>
        upsert acc ip.1 (m.hostPort.getD (strTakeWhile ip.1 (· ≠ '/'))))
    []

/-- The body of the `for service_name, service_config in
revp_config['services'].items()` loop (lines 434-509): create the shared
service, then the routers for its shape. -/
def emitContainerService (acc : BuildAcc) (svc : String × SvcCfg) : BuildAcc :=
  let serviceName := svc.1
  let sc := svc.2
  let svcVal : Service := { url := sc.serviceUrl }
  let acc := { acc with services := upsert acc.services serviceName svcVal }
  emitRouteShape acc serviceName sc.domain sc.httpsEnabled sc.redirectHttps

/-- One iteration of the `for container_data in containers_data` loop of
`build_traefik_config`. -/
def processContainer (resolver : String → String) (acc : BuildAcc)
    (cd : ContainerData) : BuildAcc :=
  match cd.details with
  | none => acc
  | some details =>
    let labels := details.labels.getD []
    let containerName := containerNameOf cd.container
    let portMappings := buildPortMappings details.ports
    let ext := extractSnadboyRevpLabels resolver labels containerName cd.sourceHost portMappings
    let revpConfig := ext.1
    let acc := { acc with st := { acc.st with
      labelParsingErrors := acc.st.labelParsingErrors ++ ext.2 } }
    if revpConfig.enabled then
      revpConfig.services.foldl emitContainerService acc
    else
      let snadboyLabels := labels.filter (fun kv => strStartsWith "snadboy.revp" kv.1)
      if snadboyLabels ≠ [] then
        { acc with st := { acc.st with excludedContainers :=
            acc.st.excludedContainers ++
              [trackExcludedContainer cd.container "Invalid label configuration"
                cd.sourceHost
                (some ("Found labels: " ++
                  String.intercalate ", " (snadboyLabels.map Prod.fst)))] } }
      else
        { acc with st := { acc.st with excludedContainers :=
            acc.st.excludedContainers ++
              [trackExcludedContainer cd.container "No snadboy.revp labels"
                cd.sourceHost
                (some ("Container has " ++ toString labels.length ++
                  " labels total, none with snadboy.revp prefix"))] } }

/-- A raw entry of the `static_routes:` YAML list, each key optional. -/
structure RawStaticRoute where
  domain : Option String := none
  target : Option String := none
  https : Option Bool := none
  redirectHttps : Option Bool := none
  description : Option String := none
  deriving DecidableEq, Repr

/-- A validated static route (`_load_static_routes` output). -/
structure StaticRoute where
  domain : String
  target : String
  httpsEnabled : Bool
  redirectHttps : Bool
  description : String
  deriving DecidableEq, Repr

/-- `_load_static_routes`: entries with a missing (or empty, Python-falsy)
`domain` or `target` are skipped; `https` and `redirect-https` default to
true.  The YAML file read is supplied as the raw entry list. -/
def loadStaticRoutes (raw : List RawStaticRoute) : List StaticRoute :=
  raw.foldl
    (fun acc r =>
      match r.domain, r.target with
      | some d, some t =>
        if d = "" ∨ t = "" then acc
        else acc ++ [{ domain := d, target := t,
                       httpsEnabled := r.https.getD true,
                       redirectHttps := r.redirectHttps.getD true,
                       description := (r.description.getD "") }]
      | _, _ => acc)
    []

/-- Static-route service naming (line 542):
`f"static-{domain.replace('.', '-').replace('*', 'wildcard')}"`.
Both patterns are single characters, so `str.replace` is a character map
for the first and a character expansion for the second. -/
def staticServiceName (domain : String) : String :=
  "static-" ++ String.mk
    (((domain.data.map fun c => if c = '.' then '-' else c).flatMap
      fun c => if c = '*' then "wildcard".data else [c]))

example : staticServiceName "*.static.example.com" = "static-wildcard-static-example-com" := by decide

/-- The `for static_route in static_routes` loop (lines 532-610). -/
def processStaticRoute (acc : BuildAcc) (sr : StaticRoute) : BuildAcc :=
  let serviceName := staticServiceName sr.domain
  let svcVal : Service := { url := sr.target }
  let acc := { acc with services := upsert acc.services serviceName svcVal }
  emitRouteShape acc serviceName sr.domain sr.httpsEnabled sr.redirectHttps

/-- `build_traefik_config`: fold the container loop, then the static-route
loop, then attach `middlewares` only when non-empty.  The static-routes
file contents enter as `rawStatic`; the diagnostic buffers enter as `st0`
(the caller's `self.excluded_containers` / `self.label_parsing_errors`)
and the updated buffers are returned alongside the document. -/
def buildTraefikConfig (resolver : String → String)
    (containersData : List ContainerData) (rawStatic : List RawStaticRoute)
    (st0 : BuildState) : HttpConfig × BuildState :=
  let acc0 : BuildAcc := { st := st0 }
  let acc1 := containersData.foldl (processContainer resolver) acc0
  let staticRoutes := loadStaticRoutes rawStatic
  let acc2 := staticRoutes.foldl processStaticRoute acc1
  ({ routers := acc2.routers, services := acc2.services,
     middlewares := if acc2.middlewares = [] then none else some acc2.middlewares },
   acc2.st)

/-! ## Discovery orchestrator and cache (`generate_config`, lines 635-722)

The pure content model: the SSH Docker client is an oracle `Env`
(per-host container listing, which may raise, and per-container inspect),
and side effects are made explicit — the provider state is threaded and
the I/O calls performed are returned as an action trace.  Wall-clock
metadata fields (`generated_at`, `processing_time_ms`) and the cache
timestamp are not modelled.  `dict.copy()` is content-preserving, so in
this model a copy is the value itself; object identity of the copy is
studied separately by the reference model further below. -/

/-- Host status entry as recorded by `check_ssh_host_health`; only the
fields the claims read (classification and error text) are kept — the
per-pass container inventories and timing fields are diagnostics built
from the same listing and do not feed back into the routing document. -/
structure HostStatus where
  hostname : String
  status : String
  lastError : Option String := none
  deriving DecidableEq, Repr

/-- Error classification of `check_ssh_host_health` (lines 877-885):
substring match on the lowercased error text. -/
def classifyHostError (msg : String) : String :=
  if containsSub "timeout" msg then "timeout"
  else if containsSub "permission" msg || containsSub "auth" msg then "permission"
  else if containsSub "connection refused" msg then "unreachable"
  else "error"

example : classifyHostError "Connection refused by peer" = "unreachable" := by decide
example : classifyHostError "ssh: Auth failed" = "permission" := by decide

/-- The collaborators of one discovery pass: enabled hosts in order, the
per-host listing result (an exception carries its message), per-container
inspect output (`none` = the empty dict returned on failure), the
hosts-file alias resolution, and the static-routes file contents. -/
structure Env where
  enabledHosts : List String
  listContainers : String → Except String (List Container)
  inspectContainer : String → String → Option Detail
  resolver : String → String
  rawStatic : List RawStaticRoute

/-- `_metadata` (wall-clock fields omitted). -/
structure Metadata where
  hostsQueried : List String
  containerCount : Nat
  enabledServices : Nat
  hostsSuccessful : List String
  hostsFailed : List String
  excludedContainers : Nat
  staticRoutes : Nat
  deriving DecidableEq, Repr

/-- The complete routing document: `http` section plus `_metadata`. -/
structure TraefikDoc where
  http : HttpConfig
  metadata : Metadata
  deriving DecidableEq, Repr

/-- Provider state touched by `generate_config`. -/
structure ProviderState where
  sshHostStatus : List (String × HostStatus) := []
  buildSt : BuildState := {}
  lastProcessedContainers : List ContainerData := []
  configCache : Option TraefikDoc := none
  deriving DecidableEq, Repr

/-- One I/O call of a discovery pass, for stating what a code path does
and does not touch. -/
inductive Action where
  | healthCheck (host : String)
  | listContainersOn (host : String)
  | inspectOn (host : String) (id : String)
  deriving DecidableEq, Repr

/-- The `ssh_host_status` entry `check_ssh_host_health` computes for a
host: `connected` when the listing succeeds, else the classified error. -/
def hostEntry (env : Env) (host : String) : HostStatus :=
  match env.listContainers host with
  | .ok _ => { hostname := env.resolver host, status := "connected" }
  | .error msg =>
    { hostname := env.resolver host, status := classifyHostError msg,
      lastError := some msg }

/-- `check_ssh_host_health`: list the host's containers; on success record
status `connected`, on failure classify the error text; always write the
entry into `ssh_host_status`. -/
def checkSshHostHealth (env : Env) (st : ProviderState) (host : String) :
    ProviderState :=
  { st with sshHostStatus := upsert st.sshHostStatus host (hostEntry env host) }

/-- `discover_containers`: return the listing, or `[]` after logging when
the client raises. -/
def discoverContainers (env : Env) (host : String) : List Container :=
  match env.listContainers host with
  | .ok cs => cs
  | .error _ => []

/-- The per-host body of the discovery loop: health check, listing, then
one inspect per listed container (failed inspects contribute `details =
none` entries that the builder skips). -/
def collectHostData (env : Env) (host : String) : List ContainerData :=
  (discoverContainers env host).map fun c =>
    { container := c, details := env.inspectContainer host c.id, sourceHost := host }

/-- Action trace of the per-host body. -/
def hostActions (env : Env) (host : String) : List Action :=
  [.healthCheck host, .listContainersOn host] ++
    (discoverContainers env host).map fun c => .inspectOn host c.id

/-- `reset_diagnostics`: clear the per-pass buffers, keep
`ssh_host_status`. -/
def resetDiagnostics (st : ProviderState) : ProviderState :=
  { st with buildSt := {}, lastProcessedContainers := [] }

/-- `generate_config`: cache hit returns the cached document (its
`.copy()`; content identical, sharing studied separately) with no I/O;
otherwise run the discovery pass over the target hosts, build the
document, attach metadata, and install the result in the cache. -/
def generateConfig (env : Env) (st : ProviderState) (host : Option String)
    (forceRefresh : Bool) : TraefikDoc × ProviderState × List Action :=
  match forceRefresh, st.configCache with
  | false, some cached => (cached, st, [])
  | _, _ =>
    let st := resetDiagnostics st
    let targetHosts := match host with
      | some h => [h]
      | none => env.enabledHosts
    let st := targetHosts.foldl (checkSshHostHealth env) st
    let containersData := targetHosts.flatMap (collectHostData env)
    let actions := targetHosts.flatMap (hostActions env)
    let built := buildTraefikConfig env.resolver containersData env.rawStatic st.buildSt
    let httpConfig := built.1
    let st := { st with buildSt := built.2, lastProcessedContainers := containersData }
    let hostsSuccessful := targetHosts.filter fun h =>
      match List.lookup h st.sshHostStatus with
      | some s => s.status == "connected"
      | none => false
    let hostsFailed := targetHosts.filter fun h =>
      match List.lookup h st.sshHostStatus with
      | some s => s.status != "connected"
      | none => true
    let doc : TraefikDoc :=
      { http := httpConfig,
        metadata :=
          { hostsQueried := targetHosts,
            containerCount := containersData.length,
            enabledServices := httpConfig.services.length,
            hostsSuccessful := hostsSuccessful,
            hostsFailed := hostsFailed,
            excludedContainers := built.2.excludedContainers.length,
            staticRoutes := (loadStaticRoutes env.rawStatic).length } }
    (doc, { st with configCache := some doc }, actions)

/-! ## Object identity of the cache-hit copy (`self._config_cache.copy()`)

`dict.copy()` is a *shallow* copy: the returned top-level dict is a new
object, but the value stored under its `'http'` key is the very same
nested object as the cache's.  The reference model makes that explicit: a
document's top level holds a heap address for its `http` section, nested
mutation is a heap update at that address, and reading a document
dereferences the address. -/

/-- Top level of a cached routing document: the `'http'` entry is a heap
reference; `_metadata` (immutable in the claims) is held by value. -/
structure DocRef where
  httpRef : Nat
  metadata : Metadata
  deriving DecidableEq, Repr

/-- The heap of nested `http` section objects, addressed by `Nat`. -/
def HttpHeap : Type := List (Nat × HttpConfig)

/-- Dereference a document: what a reader of the cache (or of the returned
copy) observes. -/
def readDoc (heap : HttpHeap) (d : DocRef) : Option HttpConfig :=
  match heap with
  | [] => none
  | (a, v) :: rest => if a = d.httpRef then some v else readDoc rest d

/-- `self._config_cache.copy()` on the cache-hit path of `generate_config`
(line 651): a fresh top-level dict holding the same references — the
`httpRef` is shared, nothing below it is copied. -/
def shallowCopyDoc (d : DocRef) : DocRef :=
  { httpRef := d.httpRef, metadata := d.metadata }

/-- Mutate one router entry of the `http` section reached through a
document (e.g. `returned['http']['routers'][name] = r`): a heap update at
the document's address. -/
def setRouterThrough (heap : HttpHeap) (d : DocRef) (name : String) (r : Router) :
    HttpHeap :=
  match heap with
  | [] => []
  | (a, v) :: rest =>
    if a = d.httpRef then (a, { v with routers := upsert v.routers name r }) :: rest
    else (a, v) :: setRouterThrough rest d name r

/-! ## Debounced refresh (`_refresh_cache_from_event` / `_debounced_refresh`)

A discrete-event model of the single `_pending_refresh` task slot.  Time
is in milliseconds; `D` is the debounce window (`_refresh_debounce_seconds
= 2.0`, i.e. 2000).  The slot is either empty, a timer sleeping until its
deadline, or a discovery pass running until its finish time.
`_refresh_cache_from_event` cancels whatever occupies the slot — a
sleeping timer is silently dropped, a *running* pass receives the
cancellation at its next suspension point and aborts — and arms a fresh
timer one window after the event. -/

/-- Phase of the single pending-refresh task. -/
inductive TaskPhase where
  | sleeping (deadline : Nat)
  | running (finishAt : Nat)
  deriving DecidableEq, Repr

/-- Observable history of discovery passes. -/
inductive PassEvent where
  | started (t : Nat)
  | completed (t : Nat)
  | aborted (t : Nat)
  deriving DecidableEq, Repr

/-- Let the pending task make its autonomous transitions up to time `t`:
a timer whose deadline has passed fires and starts a pass of length
`passDur`; a pass whose finish time has passed completes. -/
def flushUntil (passDur t : Nat) : Option TaskPhase → Option TaskPhase × List PassEvent
  | some (.sleeping d) =>
    if d ≤ t then
      if d + passDur ≤ t then (none, [.started d, .completed (d + passDur)])
      else (some (.running (d + passDur)), [.started d])
    else (some (.sleeping d), [])
  | some (.running f) =>
    if f ≤ t then (none, [.completed f]) else (some (.running f), [])
  | none => (none, [])

/-- `_refresh_cache_from_event` at time `t`: cancel the occupant of the
slot (aborting it when it is a running pass) and arm a timer for `t + D`. -/
def scheduleRefresh (D t : Nat) : Option TaskPhase → Option TaskPhase × List PassEvent
  | none => (some (.sleeping (t + D)), [])
  | some (.sleeping _) => (some (.sleeping (t + D)), [])
  | some (.running _) => (some (.sleeping (t + D)), [.aborted t])

/-- Process a time-ordered list of schedule requests from a given slot
state, then let the final occupant run to completion. -/
def simulateFrom (D passDur : Nat) (st : Option TaskPhase) :
    List Nat → List PassEvent
  | [] =>
    match st with
    | none => []
    | some (.sleeping d) => [.started d, .completed (d + passDur)]
    | some (.running f) => [.completed f]
  | t :: ts =>
    let fl := flushUntil passDur t st
    let sc := scheduleRefresh D t fl.1
    fl.2 ++ sc.2 ++ simulateFrom D passDur sc.1 ts

/-- Full run of the debouncer from an idle slot over the event times. -/
def simulateDebounce (D passDur : Nat) (times : List Nat) : List PassEvent :=
  simulateFrom D passDur none times

example : simulateDebounce 2000 100 [0, 500, 1500] =
    [.started 3500, .completed 3600] := by decide
example : simulateDebounce 2000 1000 [0, 2500] =
    [.started 2000, .aborted 2500, .started 4500, .completed 5500] := by decide

/-! ## Monitor-set reconciliation (`HealthChecker.update_services`) -/

/-- One element of the list passed to `update_services`:
`svc.get('name')` / `svc.get('health_url')`, each possibly absent. -/
structure SvcEntry where
  name : Option String := none
  healthUrl : Option String := none
  deriving DecidableEq, Repr

/-- Whether `update_services` keeps the entry: both fields present and
truthy (`if not service_name or not health_url: continue`). -/
def validEntry (e : SvcEntry) : Bool :=
  match e.name, e.healthUrl with
  | some n, some u => n ≠ "" && u ≠ ""
  | _, _ => false

/-- The loop body of `update_services`: record the name, create a fresh
`ServiceHealth` for an unknown service, else overwrite the URL when it
changed. -/
def usStep (acc : List String × List (String × ServiceHealth)) (e : SvcEntry) :
    List String × List (String × ServiceHealth) :=
  match e.name, e.healthUrl with
  | some n, some u =>
    if n = "" ∨ u = "" then acc
    else
      (acc.1 ++ [n],
       match List.lookup n acc.2 with
       | none => acc.2 ++ [(n, mkServiceHealth n u)]
       | some h =>
         upsert acc.2 n (if h.healthUrl ≠ u then { h with healthUrl := u } else h))
  | _, _ => acc

/-- `HealthChecker.update_services`: run the loop over the new list
starting from the current `self._services`, then delete every service
whose name was not seen (`removed = set(self._services) - new_names`). -/
def updateServices (old : List (String × ServiceHealth)) (L : List SvcEntry) :
    List (String × ServiceHealth) :=
  let out := L.foldl usStep ([], old)
  out.2.filter fun p => p.1 ∈ out.1

/-- URL of the last entry of `L` that is valid and names `n` — the value
`update_services` leaves in `health_url` for a retained or added `n`. -/
def lastValidUrl (L : List SvcEntry) (n : String) : Option String :=
  match L with
  | [] => none
  | e :: rest =>
    match lastValidUrl rest n with
    | some u => some u
    | none =>
      match e.name, e.healthUrl with
      | some m, some u => if (m = "" ∨ u = "") ∨ m ≠ n then none else some u
      | _, _ => none

/-! ## Theorems -/

/-- Invariant of the health FSM: DOWN holds at least `failure_threshold`
consecutive failures; any other status holds fewer. -/
def healthInv (t : Nat) (s : ServiceHealth) : Prop :=
  (s.status = .down → t ≤ s.consecutiveFailures) ∧
  (s.status ≠ .down → s.consecutiveFailures < t)

theorem failureShape_inv (t : Nat) (s : ServiceHealth)
    (hs : healthInv t s) (s2 : ServiceHealth)
    (hstat : s2.status =
      (if t ≤ s.consecutiveFailures + 1 then HealthStatus.down
       else if s.status = HealthStatus.up then HealthStatus.degraded else s.status))
    (hcf : s2.consecutiveFailures = s.consecutiveFailures + 1) :
    healthInv t s2 := by
  obtain ⟨hdown, hother⟩ := hs
  constructor
  · intro hd
    rw [hcf]
    by_cases hth : t ≤ s.consecutiveFailures + 1
    · exact hth
    · rw [hstat, if_neg hth] at hd
      by_cases hup : s.status = HealthStatus.up
      · rw [if_pos hup] at hd
        exact absurd hd (by decide)
      · rw [if_neg hup] at hd
        exact absurd (hdown hd) (by omega)
  · intro hnd
    rw [hcf]
    by_cases hth : t ≤ s.consecutiveFailures + 1
    · exact absurd (by rw [hstat, if_pos hth]) hnd
    · omega

theorem healthInv_step (dms t : Nat) (ht : 0 < t) (s : ServiceHealth)
    (hs : healthInv t s) (r : ProbeResult) :
    healthInv t (checkService dms t s r) := by
  cases r with
  | response st el =>
    by_cases hok : st < 400 ∨ st = 401 ∨ st = 403
    · have hstat : (checkService dms t s (.response st el)).status =
          (if dms < el then HealthStatus.degraded else HealthStatus.up) := by
        simp only [checkService, if_pos hok]
      have hcf : (checkService dms t s (.response st el)).consecutiveFailures = 0 := by
        simp only [checkService, if_pos hok]
      constructor
      · intro hd
        rw [hstat] at hd
        by_cases hslow : dms < el <;> · rw [hcf]; simp [hslow] at hd
      · intro _
        rw [hcf]
        exact ht
    · refine failureShape_inv t s hs _ ?_ ?_ <;>
        simp only [checkService, if_neg hok, handleFailure]
  | failure e =>
    refine failureShape_inv t s hs _ ?_ ?_ <;>
      simp only [checkService, handleFailure]

theorem healthInv_run (dms t : Nat) (ht : 0 < t) (s : ServiceHealth)
    (hs : healthInv t s) (rs : List ProbeResult) :
    healthInv t (runProbes dms t s rs) := by
  induction rs generalizing s with
  | nil => exact hs
  | cons r rest ih =>
    exact ih (checkService dms t s r) (healthInv_step dms t ht s hs r)

/-- C5.  Health-state FSM: starting from UNKNOWN, after any sequence of
probe outcomes (a) DOWN implies at least `failure_threshold` consecutive
failures and any non-DOWN state has fewer, so no reachable sequence sets
DOWN early; (b) one more failed probe sets DOWN exactly when the
consecutive failures reach the threshold; and (c) a successful probe taken
while DOWN moves to DEGRADED when the response time exceeds
`degraded_threshold_ms`, else to UP. -/
theorem healthChecker_fsm (dms t : Nat) (ht : 0 < t) (name url : String)
    (rs : List ProbeResult) :
    ((runProbes dms t (mkServiceHealth name url) rs).status = .down →
      t ≤ (runProbes dms t (mkServiceHealth name url) rs).consecutiveFailures) ∧
    ((runProbes dms t (mkServiceHealth name url) rs).status ≠ .down →
      (runProbes dms t (mkServiceHealth name url) rs).consecutiveFailures < t) ∧
    (∀ e : String,
      (checkService dms t (runProbes dms t (mkServiceHealth name url) rs) (.failure e)).status = .down ↔
      t ≤ (runProbes dms t (mkServiceHealth name url) rs).consecutiveFailures + 1) ∧
    (∀ st el : Nat, (st < 400 ∨ st = 401 ∨ st = 403) →
      (runProbes dms t (mkServiceHealth name url) rs).status = .down →
      (checkService dms t (runProbes dms t (mkServiceHealth name url) rs) (.response st el)).status =
        (if dms < el then HealthStatus.degraded else HealthStatus.up)) := by
  have hinit : healthInv t (mkServiceHealth name url) := by
    constructor
    · intro hd
      exact absurd hd (by simp [mkServiceHealth])
    · intro _
      exact ht
  have hinv := healthInv_run dms t ht (mkServiceHealth name url) hinit rs
  obtain ⟨hdown, hother⟩ := hinv
  refine ⟨hdown, hother, ?_, ?_⟩
  · intro e
    constructor
    · intro hd
      by_cases hth : t ≤ (runProbes dms t (mkServiceHealth name url) rs).consecutiveFailures + 1
      · exact hth
      · set s := runProbes dms t (mkServiceHealth name url) rs
        have hstat : (checkService dms t s (.failure e)).status =
            (if t ≤ s.consecutiveFailures + 1 then HealthStatus.down
             else if s.status = HealthStatus.up then HealthStatus.degraded else s.status) := by
          simp only [checkService, handleFailure]
        rw [hstat, if_neg hth] at hd
        by_cases hup : s.status = HealthStatus.up
        · rw [if_pos hup] at hd
          exact absurd hd (by decide)
        · rw [if_neg hup] at hd
          exact absurd (hdown hd) (by omega)
    · intro hth
      set s := runProbes dms t (mkServiceHealth name url) rs
      have hstat : (checkService dms t s (.failure e)).status =
          (if t ≤ s.consecutiveFailures + 1 then HealthStatus.down
           else if s.status = HealthStatus.up then HealthStatus.degraded else s.status) := by
        simp only [checkService, handleFailure]
      rw [hstat, if_pos hth]
  · intro st el hok _
    set s := runProbes dms t (mkServiceHealth name url) rs
    simp only [checkService, if_pos hok]

/-- Witness for C5 at the source defaults (`degraded_threshold_ms = 3000`,
`failure_threshold = 3`): three consecutive failed probes from UNKNOWN
reach DOWN with three consecutive failures recorded. -/
theorem healthChecker_fsm_witness :
    (runProbes 3000 3 (mkServiceHealth "uptime-kuma-3001" "http://fabric.lan:3001/")
      [.failure "Timeout", .failure "Timeout", .failure "Timeout"]).status = .down ∧
    3 ≤ (runProbes 3000 3 (mkServiceHealth "uptime-kuma-3001" "http://fabric.lan:3001/")
      [.failure "Timeout", .failure "Timeout", .failure "Timeout"]).consecutiveFailures := by
  have h := healthChecker_fsm 3000 3 (by decide) "uptime-kuma-3001" "http://fabric.lan:3001/"
    [.failure "Timeout", .failure "Timeout", .failure "Timeout"]
  refine ⟨by decide, h.1 (by decide)⟩

/-- Membership after a dict assignment: every entry was either already
present or is the assigned pair. -/
theorem mem_upsert {α : Type} {l : List (String × α)} {k : String} {v : α}
    {p : String × α} (h : p ∈ upsert l k v) : p ∈ l ∨ p = (k, v) := by
  induction l with
  | nil => simpa [upsert] using h
  | cons q rest ih =>
    obtain ⟨k0, v0⟩ := q
    by_cases hk : k0 = k
    · simp only [upsert, if_pos hk] at h
      rcases List.mem_cons.mp h with h1 | h1
      · right; rw [h1, hk]
      · left; exact List.mem_cons_of_mem _ h1
    · simp only [upsert, if_neg hk] at h
      rcases List.mem_cons.mp h with h1 | h1
      · left; rw [h1]; exact List.mem_cons_self _ _
      · rcases ih h1 with h2 | h2
        · left; exact List.mem_cons_of_mem _ h2
        · right; exact h2

/-- Referential integrity of a build accumulator: every router points at
an existing service, and every middleware it lists exists in the
middleware dict. -/
def refInv (acc : BuildAcc) : Prop :=
  ∀ p ∈ acc.routers,
    (List.lookup p.2.service acc.services).isSome = true ∧
    ∀ m ∈ p.2.middlewares.getD [], (List.lookup m acc.middlewares).isSome = true

theorem refInv_services_upsert {acc : BuildAcc} (h : refInv acc) (k : String)
    (v : Service) : refInv { acc with services := upsert acc.services k v } := by
  intro p hp
  obtain ⟨h1, h2⟩ := h p hp
  exact ⟨lookup_upsert_isSome _ _ _ _ h1, h2⟩

theorem refInv_mw_upsert {acc : BuildAcc} (h : refInv acc) (k : String)
    (v : Middleware) : refInv { acc with middlewares := upsert acc.middlewares k v } := by
  intro p hp
  obtain ⟨h1, h2⟩ := h p hp
  exact ⟨h1, fun m hm => lookup_upsert_isSome _ _ _ _ (h2 m hm)⟩

theorem refInv_router_upsert {acc : BuildAcc} (h : refInv acc) (nm : String)
    (r : Router) (hsvc : (List.lookup r.service acc.services).isSome = true)
    (hmw : ∀ m ∈ r.middlewares.getD [], (List.lookup m acc.middlewares).isSome = true) :
    refInv { acc with routers := upsert acc.routers nm r } := by
  intro p hp
  rcases mem_upsert hp with hin | heq
  · exact h p hin
  · rw [heq]
    exact ⟨hsvc, hmw⟩

theorem refInv_st_set {acc : BuildAcc} (h : refInv acc) (st : BuildState) :
    refInv { acc with st := st } := h

theorem emitRouteShape_refInv {acc : BuildAcc} (h : refInv acc)
    (n d : String) (he rh : Bool)
    (hsvc : (List.lookup n acc.services).isSome = true) :
    refInv (emitRouteShape acc n d he rh) := by
  cases he <;> cases rh
  · -- http only
    exact refInv_router_upsert h _ _ hsvc (by intro m hm; simp at hm)
  · -- http only
    exact refInv_router_upsert h _ _ hsvc (by intro m hm; simp at hm)
  · -- https + plain http
    refine refInv_router_upsert (refInv_router_upsert h _ _ hsvc ?_) _ _ hsvc ?_
    · intro m hm; simp at hm
    · intro m hm; simp at hm
  · -- https + redirecting http
    refine refInv_router_upsert
      (refInv_mw_upsert (refInv_router_upsert h _ _ hsvc ?_) _ _) _ _ hsvc ?_
    · intro m hm; simp at hm
    · intro m hm
      simp only [Option.getD_some, List.mem_singleton] at hm
      rw [hm]
      simpa using congrArg Option.isSome
        (lookup_upsert_self acc.middlewares (n ++ "-redirect-https")
          ({ scheme := "https", permanent := true }))

theorem emitContainerService_refInv {acc : BuildAcc} (h : refInv acc)
    (svc : String × SvcCfg) : refInv (emitContainerService acc svc) := by
  refine emitRouteShape_refInv (refInv_services_upsert h svc.1 _) svc.1 _ _ _ ?_
  simpa using congrArg Option.isSome
    (lookup_upsert_self acc.services svc.1 ({ url := svc.2.serviceUrl }))

theorem foldl_refInv {β : Type} (f : BuildAcc → β → BuildAcc)
    (hf : ∀ acc b, refInv acc → refInv (f acc b)) :
    ∀ (l : List β) (acc : BuildAcc), refInv acc → refInv (l.foldl f acc) := by
  intro l
  induction l with
  | nil => intro acc h; exact h
  | cons b rest ih => intro acc h; exact ih (f acc b) (hf acc b h)

theorem processContainer_refInv (resolver : String → String) {acc : BuildAcc}
    (h : refInv acc) (cd : ContainerData) :
    refInv (processContainer resolver acc cd) := by
  obtain ⟨c, details, host⟩ := cd
  cases details with
  | none => exact h
  | some det =>
    simp only [processContainer]
    have h1 := refInv_st_set h ({ acc.st with labelParsingErrors :=
      acc.st.labelParsingErrors ++
        (extractSnadboyRevpLabels resolver (det.labels.getD [])
          (containerNameOf c) host (buildPortMappings det.ports)).2 })
    split
    · exact foldl_refInv emitContainerService
        (fun a b hh => emitContainerService_refInv hh b) _ _ h1
    · split
      · exact refInv_st_set h1 _
      · exact refInv_st_set h1 _

theorem processStaticRoute_refInv {acc : BuildAcc} (h : refInv acc)
    (sr : StaticRoute) : refInv (processStaticRoute acc sr) := by
  refine emitRouteShape_refInv (refInv_services_upsert h (staticServiceName sr.domain) _)
    (staticServiceName sr.domain) _ _ _ ?_
  simpa using congrArg Option.isSome
    (lookup_upsert_self acc.services (staticServiceName sr.domain) ({ url := sr.target }))

/-- C1.  Referential integrity of every routing document produced by
`build_traefik_config`: each router's `service` is a key of the document's
`services` mapping, and every middleware name a router lists is a key of
the document's `middlewares` mapping. -/
theorem buildConfig_referential_integrity (resolver : String → String)
    (containersData : List ContainerData) (rawStatic : List RawStaticRoute)
    (st0 : BuildState) :
    ∀ p ∈ (buildTraefikConfig resolver containersData rawStatic st0).1.routers,
      (List.lookup p.2.service
        (buildTraefikConfig resolver containersData rawStatic st0).1.services).isSome = true ∧
      ∀ m ∈ p.2.middlewares.getD [],
        (List.lookup m
          ((buildTraefikConfig resolver containersData rawStatic st0).1.middlewares.getD
            [])).isSome = true := by
  have h0 : refInv ({ st := st0 } : BuildAcc) := by
    intro p hp
    simp at hp
  have h1 := foldl_refInv (processContainer resolver)
    (fun a b hh => processContainer_refInv resolver hh b) containersData _ h0
  have h2 := foldl_refInv processStaticRoute
    (fun a b hh => processStaticRoute_refInv hh b)
    (loadStaticRoutes rawStatic) _ h1
  intro p hp
  obtain ⟨hs, hm⟩ := h2 p hp
  refine ⟨hs, ?_⟩
  intro m hmem
  have hx := hm m hmem
  simp only [buildTraefikConfig]
  have hne : (List.foldl processStaticRoute
      (List.foldl (processContainer resolver) { st := st0 } containersData)
      (loadStaticRoutes rawStatic)).middlewares ≠ [] := by
    intro hnil
    rw [hnil] at hx
    simp [List.lookup] at hx
  rw [if_neg hne]
  exact hx

/-- Witness for C1: the S1 fixture (container `uptime-kuma`, label
`snadboy.revp.3001.domain = kuma.example.com`, HTTPS+redirect defaults)
instantiated at its redirecting HTTP router, which names a middleware. -/
theorem buildConfig_referential_integrity_witness :
    (List.lookup "uptime-kuma-3001"
      (buildTraefikConfig (fun h => if h = "fabric" then "fabric.lan" else h)
        [{ container := { namesField := some (.arr ["/uptime-kuma"]) },
           details := some { labels := some [("snadboy.revp.3001.domain", "kuma.example.com")],
                             ports := [("3001/tcp", [{ hostPort := some "3001" }])] },
           sourceHost := "fabric" }] [] {}).1.services).isSome = true ∧
    (List.lookup "uptime-kuma-3001-redirect-https"
      ((buildTraefikConfig (fun h => if h = "fabric" then "fabric.lan" else h)
        [{ container := { namesField := some (.arr ["/uptime-kuma"]) },
           details := some { labels := some [("snadboy.revp.3001.domain", "kuma.example.com")],
                             ports := [("3001/tcp", [{ hostPort := some "3001" }])] },
           sourceHost := "fabric" }] [] {}).1.middlewares.getD [])).isSome = true := by
  have h := buildConfig_referential_integrity
    (fun h => if h = "fabric" then "fabric.lan" else h)
    [{ container := { namesField := some (.arr ["/uptime-kuma"]) },
       details := some { labels := some [("snadboy.revp.3001.domain", "kuma.example.com")],
                         ports := [("3001/tcp", [{ hostPort := some "3001" }])] },
       sourceHost := "fabric" }] [] {}
    ("uptime-kuma-3001-http-router",
     { rule := "Host(`kuma.example.com`)", service := "uptime-kuma-3001",
       entryPoints := ["web"], middlewares := some ["uptime-kuma-3001-redirect-https"] })
    (by decide)
  exact ⟨h.1, h.2 "uptime-kuma-3001-redirect-https" (by decide)⟩

/-! ### C2 — multiple comma-separated domains (spec scenario S3) -/

/-- Alias resolution of the test host registry (`fabric` resolves to
`fabric.lan` in the hosts file). -/
def fabricResolver : String → String := fun h => if h = "fabric" then "fabric.lan" else h

/-- The S1/S3 container snapshot: one running container named
`uptime-kuma`. -/
def kumaContainer : Container :=
  { namesField := some (.arr ["/uptime-kuma"]), id := "abcdef123456" }

/-- Inspect detail of `uptime-kuma` with the single label
`snadboy.revp.3001.domain = d` and port map `3001/tcp -> 3001`. -/
def kumaDetail (d : String) : Detail :=
  { labels := some [("snadboy.revp.3001.domain", d)],
    ports := [("3001/tcp", [{ hostPort := some "3001" }])] }

/-- The container-data entry fed to the builder for the S3 fixture. -/
def s3Data (d : String) : ContainerData :=
  { container := kumaContainer, details := some (kumaDetail d), sourceHost := "fabric" }

/-- Number of routers of a document bound to the given entry point. -/
def countRouters (doc : HttpConfig) (entry : String) : Nat :=
  (doc.routers.filter (fun p => p.2.entryPoints = [entry])).length

/-- The S3 claim as stated, at the fixture with
`domain = "a.example.com,b.example.com"` (k = 2): two HTTPS routers and
two redirecting HTTP routers, one per domain, all referencing the shared
service `uptime-kuma-3001`. -/
def claimC2AtS3 : Prop :=
  countRouters (buildTraefikConfig fabricResolver
      [s3Data "a.example.com,b.example.com"] [] {}).1 "websecure" = 2 ∧
  countRouters (buildTraefikConfig fabricResolver
      [s3Data "a.example.com,b.example.com"] [] {}).1 "web" = 2 ∧
  (∃ p ∈ (buildTraefikConfig fabricResolver
      [s3Data "a.example.com,b.example.com"] [] {}).1.routers,
    p.2.rule = "Host(`a.example.com`)") ∧
  (∃ p ∈ (buildTraefikConfig fabricResolver
      [s3Data "a.example.com,b.example.com"] [] {}).1.routers,
    p.2.rule = "Host(`b.example.com`)")

/-- C2 counterexample: at the k = 2 fixture the builder emits a single
HTTPS router (whose rule carries the unsplit string
`Host(`a.example.com,b.example.com`)`), not one router per domain — the
domain value is never split on commas. -/
theorem multiDomain_claim_counterexample : ¬ claimC2AtS3 := by
  unfold claimC2AtS3
  decide

/-- C2 amended: a port group whose `domain` value is any non-empty string
`d` (in particular a comma-separated list of k ≥ 2 domains) with
HTTPS+redirect defaults yields exactly one HTTPS router and one
redirecting HTTP router, both with rule `Host(`d`)` on the unsplit value,
referencing the single shared service `uptime-kuma-3001`, plus one
redirect middleware. -/
theorem multiDomain_single_router_pair (d : String) (hd : d ≠ "") :
    (buildTraefikConfig fabricResolver [s3Data d] [] {}).1.routers =
      [("uptime-kuma-3001-https-router",
        { rule := "Host(`" ++ d ++ "`)", service := "uptime-kuma-3001",
          entryPoints := ["websecure"], tls := true }),
       ("uptime-kuma-3001-http-router",
        { rule := "Host(`" ++ d ++ "`)", service := "uptime-kuma-3001",
          entryPoints := ["web"],
          middlewares := some ["uptime-kuma-3001-redirect-https"] })] ∧
    (buildTraefikConfig fabricResolver [s3Data d] [] {}).1.services =
      [("uptime-kuma-3001", { url := "http://fabric.lan:3001/" })] ∧
    (buildTraefikConfig fabricResolver [s3Data d] [] {}).1.middlewares =
      some [("uptime-kuma-3001-redirect-https", { scheme := "https", permanent := true })] := by
  have hp : parseRevpKey "snadboy.revp.3001.domain" = some ("3001", "domain") := by decide
  have hn : containerNameOf kumaContainer = "uptime-kuma" := by decide
  have hb : labelBool none = true := by decide
  have hr : fabricResolver "fabric" = "fabric.lan" := by decide
  have hsw : strStartsWith "/" "/" = true := by decide
  refine ⟨?_, ?_, ?_⟩ <;>
    simp [buildTraefikConfig, processContainer, emitContainerService,
      emitRouteShape, extractSnadboyRevpLabels, groupPortConfigs, hp, hn, hb, hr, hsw,
      buildPortMappings, loadStaticRoutes, upsert, s3Data, kumaDetail,
      List.lookup, hd]

/-- Witness for C2's amended theorem at the S3 domain list. -/
theorem multiDomain_single_router_pair_witness :
    (buildTraefikConfig fabricResolver [s3Data "a.example.com,b.example.com"] [] {}).1.services =
      [("uptime-kuma-3001", { url := "http://fabric.lan:3001/" })] ∧
    countRouters (buildTraefikConfig fabricResolver
      [s3Data "a.example.com,b.example.com"] [] {}).1 "websecure" = 1 := by
  have h := multiDomain_single_router_pair "a.example.com,b.example.com" (by decide)
  exact ⟨h.2.1, by decide⟩

/-! ### C3 — port group without a `domain` label (spec scenario S4) -/

/-- The S4 container: running container named `test-app`. -/
def s4Container : Container :=
  { namesField := some (.arr ["/test-app"]), id := "222222222222" }

/-- The S4 container-data entry: only label
`snadboy.revp.8080.backend-proto = http`, no `domain`. -/
def s4Data : ContainerData :=
  { container := s4Container,
    details := some { labels := some [("snadboy.revp.8080.backend-proto", "http")],
                      ports := [] },
    sourceHost := "fabric" }

/-- The S4 claim as stated: no router or service, the exact
label-parse-error record, *and* an excluded-containers entry for the
container. -/
def claimC3AtS4 : Prop :=
  (buildTraefikConfig fabricResolver [s4Data] [] {}).1.routers = [] ∧
  (buildTraefikConfig fabricResolver [s4Data] [] {}).1.services = [] ∧
  ({ container := "test-app", label := "snadboy.revp.8080.*",
     error := "Missing required 'domain' label for port 8080" } : LabelError) ∈
    (buildTraefikConfig fabricResolver [s4Data] [] {}).2.labelParsingErrors ∧
  ∃ r ∈ (buildTraefikConfig fabricResolver [s4Data] [] {}).2.excludedContainers,
    r.name = "test-app"

/-- C3 counterexample: at the S4 fixture no excluded-containers record is
written at all — a port group with labels but no `domain` leaves
`revp_config['enabled'] = True` with zero services, so the loop emits
nothing and the `else` branch that calls `track_excluded_container` is
never reached. -/
theorem missingDomain_claim_counterexample : ¬ claimC3AtS4 := by
  unfold claimC3AtS4
  decide

/-- C3 amended: for any container whose only snadboy.revp label is
`snadboy.revp.8080.backend-proto` (no `domain`), a discovery pass emits no
router and no service for it and appends the label-parse-error record with
message `Missing required 'domain' label for port 8080`, but the container
is *not* listed in `excluded_containers` (the invalid-label-configuration
exclusion fires only for snadboy.revp labels that match no port group). -/
theorem missingDomain_parse_error_no_exclusion (resolver : String → String)
    (c : Container) (host v : String) :
    (buildTraefikConfig resolver
      [{ container := c,
         details := some { labels := some [("snadboy.revp.8080.backend-proto", v)],
                           ports := [] },
         sourceHost := host }] [] {}).1.routers = [] ∧
    (buildTraefikConfig resolver
      [{ container := c,
         details := some { labels := some [("snadboy.revp.8080.backend-proto", v)],
                           ports := [] },
         sourceHost := host }] [] {}).1.services = [] ∧
    (buildTraefikConfig resolver
      [{ container := c,
         details := some { labels := some [("snadboy.revp.8080.backend-proto", v)],
                           ports := [] },
         sourceHost := host }] [] {}).2.labelParsingErrors =
      [{ container := containerNameOf c, label := "snadboy.revp.8080.*",
         error := "Missing required 'domain' label for port 8080" }] ∧
    (buildTraefikConfig resolver
      [{ container := c,
         details := some { labels := some [("snadboy.revp.8080.backend-proto", v)],
                           ports := [] },
         sourceHost := host }] [] {}).2.excludedContainers = [] := by
  have hp : parseRevpKey "snadboy.revp.8080.backend-proto" =
      some ("8080", "backend-proto") := by decide
  refine ⟨?_, ?_, ?_, ?_⟩ <;>
    simp [buildTraefikConfig, processContainer, emitContainerService,
      extractSnadboyRevpLabels, groupPortConfigs, hp, buildPortMappings,
      loadStaticRoutes, upsert, missingDomainError, List.lookup]

/-! ### C8 — static-route service naming (spec scenario S5) -/

theorem append_right_ne (a : String) {b c : String} (h : b ≠ c) :
    a ++ b ≠ a ++ c := by
  intro he
  apply h
  apply String.ext
  have hd := congrArg String.data he
  rw [String.data_append, String.data_append] at hd
  exact List.append_cancel_left hd

/-- C8.  For every valid static route with `https` and `redirect-https`
true, the service name is `static-` followed by the domain with every `.`
replaced by `-` and every `*` replaced by `wildcard`, together with an
HTTPS router carrying `tls = {}`, a redirecting HTTP router, and one
redirect middleware. -/
theorem staticRoute_service_naming (resolver : String → String)
    (dom tgt : String) (hdom : dom ≠ "") (htgt : tgt ≠ "") :
    staticServiceName dom = "static-" ++ String.mk
      (((dom.data.map fun c => if c = '.' then '-' else c).flatMap
        fun c => if c = '*' then "wildcard".data else [c])) ∧
    (buildTraefikConfig resolver []
      [{ domain := some dom, target := some tgt,
         https := some true, redirectHttps := some true }] {}).1.services =
      [(staticServiceName dom, { url := tgt })] ∧
    (buildTraefikConfig resolver []
      [{ domain := some dom, target := some tgt,
         https := some true, redirectHttps := some true }] {}).1.routers =
      [(staticServiceName dom ++ "-https-router",
        { rule := "Host(`" ++ dom ++ "`)", service := staticServiceName dom,
          entryPoints := ["websecure"], tls := true }),
       (staticServiceName dom ++ "-http-router",
        { rule := "Host(`" ++ dom ++ "`)", service := staticServiceName dom,
          entryPoints := ["web"],
          middlewares := some [staticServiceName dom ++ "-redirect-https"] })] ∧
    (buildTraefikConfig resolver []
      [{ domain := some dom, target := some tgt,
         https := some true, redirectHttps := some true }] {}).1.middlewares =
      some [(staticServiceName dom ++ "-redirect-https",
             { scheme := "https", permanent := true })] := by
  have hne : staticServiceName dom ++ "-https-router" ≠
      staticServiceName dom ++ "-http-router" :=
    append_right_ne (staticServiceName dom) (by decide)
  refine ⟨rfl, ?_, ?_, ?_⟩ <;>
    simp [buildTraefikConfig, processStaticRoute, emitRouteShape,
      loadStaticRoutes, upsert, hdom, htgt, hne]

/-- Witness for C8 at the S5 fixture: domain `*.static.example.com`
yields exactly the service name `static-wildcard-static-example-com`. -/
theorem staticRoute_service_naming_witness :
    staticServiceName "*.static.example.com" = "static-wildcard-static-example-com" ∧
    (buildTraefikConfig (fun h => h) []
      [{ domain := some "*.static.example.com", target := some "http://10.0.0.5:80",
         https := some true, redirectHttps := some true }] {}).1.services =
      [("static-wildcard-static-example-com", { url := "http://10.0.0.5:80" })] := by
  have h := staticRoute_service_naming (fun h => h) "*.static.example.com"
    "http://10.0.0.5:80" (by decide) (by decide)
  refine ⟨by decide, ?_⟩
  rw [h.2.1]
  decide

/-! ### C9 — cache hit ignores the `host` argument -/

/-- A small cached routing document used by the cache-hit witnesses. -/
def cachedFixtureDoc : TraefikDoc :=
  { http := { routers := [], services := [], middlewares := none },
    metadata := { hostsQueried := ["fabric", "media"], containerCount := 0,
                  enabledServices := 0, hostsSuccessful := ["fabric", "media"],
                  hostsFailed := [], excludedContainers := 0, staticRoutes := 0 } }

/-- Provider state holding that cached document. -/
def cachedFixtureState : ProviderState := { configCache := some cachedFixtureDoc }

/-- A two-host environment used by the cache-hit witnesses. -/
def twoHostEnv : Env :=
  { enabledHosts := ["fabric", "media"],
    listContainers := fun _ => .ok [],
    inspectContainer := fun _ _ => none,
    resolver := fun h => h,
    rawStatic := [] }

/-- C9.  With a cached document and `force_refresh = false`,
`generate_config(host=H)` ignores the host argument entirely: it returns
the cached document (generated from all enabled hosts), performs no
listing, inspection or health probe for `H` (the action trace is empty),
and leaves the provider state untouched; the call is indistinguishable
from `generate_config()` with no host. -/
theorem generateConfig_cacheHit_ignores_host (env : Env) (st : ProviderState)
    (c : TraefikDoc) (H : String) (hc : st.configCache = some c) :
    generateConfig env st (some H) false = (c, st, []) ∧
    generateConfig env st (some H) false = generateConfig env st none false := by
  constructor <;> simp [generateConfig, hc]

/-- Witness for C9 at the two-host fixture. -/
theorem generateConfig_cacheHit_ignores_host_witness :
    generateConfig twoHostEnv cachedFixtureState (some "fabric") false =
      (cachedFixtureDoc, cachedFixtureState, []) :=
  (generateConfig_cacheHit_ignores_host twoHostEnv cachedFixtureState
    cachedFixtureDoc "fabric" rfl).1

/-! ### C7 — the cache-hit copy is shallow, not deep -/

/-- Metadata of the C7 heap fixture. -/
def c7Meta : Metadata :=
  { hostsQueried := ["fabric"], containerCount := 1, enabledServices := 1,
    hostsSuccessful := ["fabric"], hostsFailed := [], excludedContainers := 0,
    staticRoutes := 0 }

/-- `http` section of the C7 heap fixture. -/
def c7Http : HttpConfig :=
  { routers := [("uptime-kuma-3001-https-router",
      { rule := "Host(`kuma.example.com`)", service := "uptime-kuma-3001",
        entryPoints := ["websecure"], tls := true })],
    services := [("uptime-kuma-3001", { url := "http://fabric.lan:3001/" })] }

/-- Heap with the cached `http` section at address 0. -/
def c7Heap : HttpHeap := [(0, c7Http)]

/-- The cached document (top level referencing address 0). -/
def c7Cache : DocRef := { httpRef := 0, metadata := c7Meta }

/-- The C7 claim as stated, at a given heap and cached document: mutating
any router entry through the value returned by the cache-hit path never
alters the cached document. -/
def deepCopyClaimAt (heap : HttpHeap) (cache : DocRef) : Prop :=
  ∀ (name : String) (r : Router),
    readDoc (setRouterThrough heap (shallowCopyDoc cache) name r) cache =
      readDoc heap cache

/-- C7 counterexample: `generate_config` returns
`self._config_cache.copy()` — a *shallow* dict copy — so at the concrete
heap fixture, writing a router through the returned value changes what a
reader of the cache observes. -/
theorem shallowCopy_claim_counterexample : ¬ deepCopyClaimAt c7Heap c7Cache := by
  intro h
  exact absurd
    (h "injected-router" { rule := "Host(`evil`)", service := "x", entryPoints := ["web"] })
    (by decide)

/-- C7 amended: on a cache hit the returned value is a shallow copy — a
fresh top-level mapping whose `http` entry is the very same object as the
cache's, so mutating a nested router entry through the returned value
rewrites the cached document's routers accordingly — and no discovery pass
runs (empty action trace, cached content returned unchanged). -/
theorem generateConfig_cacheHit_shallow_copy (env : Env) (st : ProviderState)
    (c : TraefikDoc) (hc : st.configCache = some c)
    (heap : HttpHeap) (d : DocRef) (name : String) (r : Router) :
    (shallowCopyDoc d).httpRef = d.httpRef ∧
    readDoc (setRouterThrough heap (shallowCopyDoc d) name r) d =
      (readDoc heap d).map (fun v => { v with routers := upsert v.routers name r }) ∧
    (generateConfig env st none false).2.2 = [] ∧
    (generateConfig env st none false).1 = c := by
  refine ⟨rfl, ?_, ?_, ?_⟩
  · induction heap with
    | nil => rfl
    | cons p rest ih =>
      obtain ⟨a, v⟩ := p
      by_cases ha : a = d.httpRef
      · simp [setRouterThrough, readDoc, shallowCopyDoc, ha]
      · simp only [setRouterThrough, readDoc, shallowCopyDoc, if_neg ha]
        exact ih
  · simp [generateConfig, hc]
  · simp [generateConfig, hc]

/-- The router written through the returned shallow copy in the C7
scenario. -/
def injectedRouter : Router :=
  { rule := "Host(`evil`)", service := "x", entryPoints := ["web"] }

/-- Witness for C7's amended theorem at the concrete heap fixture: the
router written through the returned copy is visible when the cache is
read. -/
theorem generateConfig_cacheHit_shallow_copy_witness :
    readDoc (setRouterThrough c7Heap (shallowCopyDoc c7Cache) "injected-router"
      injectedRouter) c7Cache =
      some { c7Http with routers := upsert c7Http.routers "injected-router" injectedRouter } ∧
    (generateConfig twoHostEnv cachedFixtureState none false).2.2 = [] := by
  have h := generateConfig_cacheHit_shallow_copy twoHostEnv cachedFixtureState
    cachedFixtureDoc rfl c7Heap c7Cache "injected-router" injectedRouter
  refine ⟨?_, h.2.2.1⟩
  rw [h.2.1]
  decide

/-! ### C6 — host-failure isolation -/

theorem classify_ne_connected (msg : String) :
    classifyHostError msg ≠ "connected" := by
  unfold classifyHostError
  split_ifs <;> decide

theorem healthFold_buildSt (env : Env) (hosts : List String) (st : ProviderState) :
    (hosts.foldl (checkSshHostHealth env) st).buildSt = st.buildSt := by
  induction hosts generalizing st with
  | nil => rfl
  | cons h rest ih => exact ih (checkSshHostHealth env st h)

theorem healthFold_lookup_stable (env : Env) (hosts : List String)
    (st : ProviderState) (A : String)
    (hA : List.lookup A st.sshHostStatus = some (hostEntry env A)) :
    List.lookup A (hosts.foldl (checkSshHostHealth env) st).sshHostStatus =
      some (hostEntry env A) := by
  induction hosts generalizing st with
  | nil => exact hA
  | cons h rest ih =>
    apply ih
    by_cases hh : A = h
    · subst hh
      exact lookup_upsert_self _ _ _
    · rw [show (checkSshHostHealth env st h).sshHostStatus =
          upsert st.sshHostStatus h (hostEntry env h) from rfl]
      rw [lookup_upsert_ne _ _ _ _ hh]
      exact hA

theorem healthFold_lookup (env : Env) (hosts : List String) (st : ProviderState)
    (A : String) (hA : A ∈ hosts) :
    List.lookup A (hosts.foldl (checkSshHostHealth env) st).sshHostStatus =
      some (hostEntry env A) := by
  induction hosts generalizing st with
  | nil => cases hA
  | cons h rest ih =>
    rw [List.foldl_cons]
    by_cases hh : A = h
    · subst hh
      exact healthFold_lookup_stable env rest (checkSshHostHealth env st A) A
        (lookup_upsert_self _ _ _)
    · rcases List.mem_cons.mp hA with h1 | h1
      · exact absurd h1 hh
      · exact ih (checkSshHostHealth env st h) h1

theorem collectHostData_of_error (env : Env) (h : String) {e : String}
    (he : env.listContainers h = .error e) : collectHostData env h = [] := by
  simp [collectHostData, discoverContainers, he]

theorem collect_flatMap_okFilter (env : Env) (hosts : List String) :
    hosts.flatMap (collectHostData env) =
      (hosts.filter fun h => (env.listContainers h).isOk).flatMap
        (collectHostData env) := by
  induction hosts with
  | nil => rfl
  | cons h rest ih =>
    cases henv : env.listContainers h with
    | ok cs =>
      have : (env.listContainers h).isOk = true := by rw [henv]; rfl
      simp only [List.flatMap_cons, List.filter_cons, this, if_pos]
      rw [ih]
    | error e =>
      have : (env.listContainers h).isOk = false := by rw [henv]; rfl
      simp only [List.flatMap_cons, List.filter_cons, this]
      rw [collectHostData_of_error env h henv, ih]
      simp

/-- The `http` section a forced full-pass discovery produces: the builder
applied to the per-host collected container data, with cleared
diagnostics. -/
theorem generateConfig_force_http (env : Env) (st : ProviderState) :
    (generateConfig env st none true).1.http =
      (buildTraefikConfig env.resolver
        (env.enabledHosts.flatMap (collectHostData env)) env.rawStatic {}).1 := by
  simp only [generateConfig]
  rw [healthFold_buildSt]
  rfl

/-- C6.  If listing containers on one enabled host raises, a forced
discovery pass still completes: its `http` section equals the one produced
with that host absent (only the hosts whose listing succeeds contribute
routes), the failing host lands in the `_metadata` failed-hosts partition,
and the cache is still updated with the returned document. -/
theorem generateConfig_host_failure_isolation (env : Env) (st : ProviderState)
    (A e : String) (hA : A ∈ env.enabledHosts)
    (he : env.listContainers A = .error e) :
    (generateConfig env st none true).1.http =
      (generateConfig
        { env with enabledHosts :=
            env.enabledHosts.filter fun h => (env.listContainers h).isOk }
        st none true).1.http ∧
    A ∈ (generateConfig env st none true).1.metadata.hostsFailed ∧
    (generateConfig env st none true).2.1.configCache =
      some (generateConfig env st none true).1 := by
  refine ⟨?_, ?_, ?_⟩
  · rw [generateConfig_force_http, generateConfig_force_http,
      collect_flatMap_okFilter]
    rfl
  · have hlook := healthFold_lookup env env.enabledHosts (resetDiagnostics st) A hA
    simp only [generateConfig]
    rw [List.mem_filter]
    refine ⟨hA, ?_⟩
    rw [hlook]
    simp only [hostEntry, he]
    have := classify_ne_connected e
    simp [bne_iff_ne, this]
  · rfl

/-- Two-host environment for the C6 witness: `fabric` lists one routed
container, `media` times out. -/
def failEnv : Env :=
  { enabledHosts := ["fabric", "media"],
    listContainers := fun h =>
      if h = "media" then .error "Connection timeout after 5s" else .ok [kumaContainer],
    inspectContainer := fun _ _ => some (kumaDetail "kuma.example.com"),
    resolver := fabricResolver,
    rawStatic := [] }

/-- Witness for C6: with `media` failing, the pass still emits the
`uptime-kuma-3001` service from `fabric`, reports `media` as failed, and
installs the document in the cache. -/
theorem generateConfig_host_failure_isolation_witness :
    (List.lookup "uptime-kuma-3001"
      (generateConfig failEnv {} none true).1.http.services).isSome = true ∧
    "media" ∈ (generateConfig failEnv {} none true).1.metadata.hostsFailed ∧
    (generateConfig failEnv {} none true).2.1.configCache =
      some (generateConfig failEnv {} none true).1 := by
  have h := generateConfig_host_failure_isolation failEnv {} "media"
    "Connection timeout after 5s" (by decide) rfl
  exact ⟨by decide, h.2.1, h.2.2⟩

/-! ### C4 — debounce coalescing and cancellation of a running pass -/

/-- Last element of a list, with a default for the empty list (the time of
the final event of a burst). -/
def lastD (d : Nat) : List Nat → Nat
  | [] => d
  | x :: xs => lastD x xs

theorem simulateFrom_burst (D dur : Nat) (ts : List Nat) (p : Nat)
    (hchain : List.Chain (fun a b => a ≤ b ∧ b < a + D) p ts) :
    simulateFrom D dur (some (.sleeping (p + D))) ts =
      [.started (lastD p ts + D), .completed (lastD p ts + D + dur)] := by
  induction ts generalizing p with
  | nil => rfl
  | cons t rest ih =>
    obtain ⟨⟨hle, hlt⟩, hchain2⟩ := List.chain_cons.mp hchain
    have hfl : flushUntil dur t (some (.sleeping (p + D))) =
        (some (.sleeping (p + D)), []) := by
      simp only [flushUntil, if_neg (show ¬ p + D ≤ t by omega)]
    have hsc : scheduleRefresh D t (some (.sleeping (p + D))) =
        (some (.sleeping (t + D)), []) := rfl
    simp only [simulateFrom, hfl, hsc, List.nil_append]
    exact ih t hchain2

/-- C4 counterexample, against the parenthetical invariant of the claim
(schedule calls arriving during a running pass extend the tail rather than
cancel that pass): with D = 2000 ms and a pass lasting 1000 ms, events at
t = 0 and t = 2500 make `_refresh_cache_from_event` call `.cancel()` on
the `_pending_refresh` task while it is already *running*
`generate_config`, aborting that pass at its next suspension point. -/
theorem debounce_cancel_counterexample :
    ¬ (∀ t : Nat, PassEvent.aborted t ∉ simulateDebounce 2000 1000 [0, 2500]) := by
  intro h
  exact h 2500 (by decide)

/-- C4 amended.  For a burst of N ≥ 1 schedule requests starting from an
idle slot, each arriving less than D after the previous one, exactly one
discovery pass executes, starting exactly D after the last event of the
burst (and hence no sooner); the single `_pending_refresh` slot holds at
most one pending timer.  But a schedule call that arrives while a pass is
*running* cancels that pass (aborting it) and arms a fresh timer, rather
than extending the tail of the running pass. -/
theorem debounce_burst_coalescing (D dur t0 : Nat) (ts : List Nat)
    (hchain : List.Chain (fun a b => a ≤ b ∧ b < a + D) t0 ts) :
    simulateDebounce D dur (t0 :: ts) =
      [.started (lastD t0 ts + D), .completed (lastD t0 ts + D + dur)] ∧
    (∀ t f : Nat, scheduleRefresh D t (some (.running f)) =
      (some (.sleeping (t + D)), [.aborted t])) := by
  constructor
  · have h0 : flushUntil dur t0 none = (none, []) := rfl
    have h1 : scheduleRefresh D t0 none = (some (.sleeping (t0 + D)), []) := rfl
    simp only [simulateDebounce, simulateFrom, h0, h1, List.nil_append]
    exact simulateFrom_burst D dur ts t0 hchain
  · intro t f
    rfl

/-- Witness for C4 at the spec's S6 timings: events at 0, 500, 1500 ms
with D = 2000 ms produce one pass starting at 3500 ms. -/
theorem debounce_burst_coalescing_witness :
    simulateDebounce 2000 100 [0, 500, 1500] =
      [.started 3500, .completed 3600] := by
  have h := debounce_burst_coalescing 2000 100 0 [500, 1500]
    (List.Chain.cons (by omega) (List.Chain.cons (by omega) List.Chain.nil))
  rw [h.1]
  decide

/-! ### C10 — monitor-set reconciliation -/

theorem lookup_append {α : Type} (l1 l2 : List (String × α)) (k : String) :
    List.lookup k (l1 ++ l2) =
      match List.lookup k l1 with
      | some v => some v
      | none => List.lookup k l2 := by
  induction l1 with
  | nil => simp [List.lookup]
  | cons p rest ih =>
    obtain ⟨k0, v0⟩ := p
    by_cases hk : k = k0
    · subst hk
      simp [List.lookup]
    · have hb : (k == k0) = false := by simp [beq_iff_eq]; exact hk
      simp [List.lookup, hb, ih]

theorem lookup_filter_mem {α : Type} (l : List (String × α))
    (names : List String) (n : String) :
    List.lookup n (l.filter fun p => p.1 ∈ names) =
      (if n ∈ names then List.lookup n l else none) := by
  induction l with
  | nil => simp [List.lookup]
  | cons p rest ih =>
    obtain ⟨k, v⟩ := p
    by_cases hk : n = k
    · subst hk
      by_cases hm : n ∈ names
      · simp [List.filter_cons, hm, List.lookup]
      · simp [List.filter_cons, hm, List.lookup, ih]
    · have hb : (n == k) = false := by simp [beq_iff_eq]; exact hk
      by_cases hm : k ∈ names
      · simp [List.filter_cons, hm, List.lookup, hb, ih]
      · simp [List.filter_cons, hm, List.lookup, hb, ih]

/-- The `ServiceHealth` entry `update_services` leaves under name `n` when
the last valid entry for `n` carries URL `u`: the previous entry with only
its URL overwritten, or a fresh UNKNOWN entry. -/
def applyUrl (o : Option ServiceHealth) (n u : String) : ServiceHealth :=
  match o with
  | some h => { h with healthUrl := u }
  | none => mkServiceHealth n u

theorem applyUrl_override (o : Option ServiceHealth) (n u u2 : String) :
    { applyUrl o n u with healthUrl := u2 } = applyUrl o n u2 := by
  cases o <;> rfl

theorem usFold_names (L : List SvcEntry) (names : List String)
    (map : List (String × ServiceHealth)) (n : String) :
    (n ∈ (L.foldl usStep (names, map)).1) ↔
      n ∈ names ∨ (lastValidUrl L n).isSome = true := by
  induction L generalizing names map with
  | nil => simp [lastValidUrl]
  | cons e rest ih =>
    match he : e.name, hu : e.healthUrl with
    | none, _ =>
      rw [List.foldl_cons]
      rw [show usStep (names, map) e = (names, map) by simp [usStep, he]]
      rw [ih]
      rw [show lastValidUrl (e :: rest) n = lastValidUrl rest n by
        simp only [lastValidUrl, he]
        cases lastValidUrl rest n <;> rfl]
    | some m, none =>
      rw [List.foldl_cons]
      rw [show usStep (names, map) e = (names, map) by simp [usStep, he, hu]]
      rw [ih]
      rw [show lastValidUrl (e :: rest) n = lastValidUrl rest n by
        simp only [lastValidUrl, he, hu]
        cases lastValidUrl rest n <;> rfl]
    | some m, some u =>
      by_cases hempty : m = "" ∨ u = ""
      · rw [List.foldl_cons]
        rw [show usStep (names, map) e = (names, map) by
          simp only [usStep, he, hu, if_pos hempty]]
        rw [ih]
        rw [show lastValidUrl (e :: rest) n = lastValidUrl rest n by
          simp only [lastValidUrl, he, hu]
          cases lastValidUrl rest n with
          | none => simp [hempty]
          | some _ => rfl]
      · by_cases hm : m = n
        · subst hm
          rw [List.foldl_cons]
          rw [show usStep (names, map) e =
              (names ++ [m],
               match List.lookup m map with
               | none => map ++ [(m, mkServiceHealth m u)]
               | some h =>
                 upsert map m (if h.healthUrl ≠ u then { h with healthUrl := u } else h))
            from by simp only [usStep, he, hu, if_neg hempty]]
          rw [ih]
          have hcond : ¬ ((m = "" ∨ u = "") ∨ ¬ m = m) := fun hc =>
            hc.elim hempty (fun hx => hx rfl)
          have hlast : (lastValidUrl (e :: rest) m).isSome = true := by
            simp only [lastValidUrl, he, hu]
            cases lastValidUrl rest m with
            | none => rw [if_neg hcond]; rfl
            | some _ => rfl
          simp [hlast]
        · rw [List.foldl_cons]
          rw [show usStep (names, map) e =
              (names ++ [m],
               match List.lookup m map with
               | none => map ++ [(m, mkServiceHealth m u)]
               | some h =>
                 upsert map m (if h.healthUrl ≠ u then { h with healthUrl := u } else h))
            from by simp only [usStep, he, hu, if_neg hempty]]
          rw [ih]
          have hlast : lastValidUrl (e :: rest) n = lastValidUrl rest n := by
            simp only [lastValidUrl, he, hu]
            cases lastValidUrl rest n with
            | none => simp [hm]
            | some _ => rfl
          rw [hlast]
          constructor
          · intro h1
            rcases h1 with h1 | h1
            · rcases List.mem_append.mp h1 with h2 | h2
              · exact Or.inl h2
              · exact absurd (List.mem_singleton.mp h2) (fun hx => hm hx.symm)
            · exact Or.inr h1
          · intro h1
            rcases h1 with h1 | h1
            · exact Or.inl (List.mem_append_left _ h1)
            · exact Or.inr h1

theorem applyUrl_twice (o : Option ServiceHealth) (n u u2 : String) :
    applyUrl (some (applyUrl o n u)) n u2 = applyUrl o n u2 := by
  cases o <;> rfl

theorem usFold_lookup (L : List SvcEntry) (names : List String)
    (map : List (String × ServiceHealth)) (n : String) :
    List.lookup n (L.foldl usStep (names, map)).2 =
      (match lastValidUrl L n with
       | some u => some (applyUrl (List.lookup n map) n u)
       | none => List.lookup n map) := by
  induction L generalizing names map with
  | nil => simp [lastValidUrl]
  | cons e rest ih =>
    match he : e.name, hu : e.healthUrl with
    | none, _ =>
      rw [List.foldl_cons]
      rw [show usStep (names, map) e = (names, map) by simp [usStep, he]]
      rw [ih]
      rw [show lastValidUrl (e :: rest) n = lastValidUrl rest n by
        simp only [lastValidUrl, he]
        cases lastValidUrl rest n <;> rfl]
    | some m, none =>
      rw [List.foldl_cons]
      rw [show usStep (names, map) e = (names, map) by simp [usStep, he, hu]]
      rw [ih]
      rw [show lastValidUrl (e :: rest) n = lastValidUrl rest n by
        simp only [lastValidUrl, he, hu]
        cases lastValidUrl rest n <;> rfl]
    | some m, some u =>
      by_cases hempty : m = "" ∨ u = ""
      · rw [List.foldl_cons]
        rw [show usStep (names, map) e = (names, map) by
          simp only [usStep, he, hu, if_pos hempty]]
        rw [ih]
        rw [show lastValidUrl (e :: rest) n = lastValidUrl rest n by
          simp only [lastValidUrl, he, hu]
          cases lastValidUrl rest n with
          | none => simp [hempty]
          | some _ => rfl]
      · have hstep : usStep (names, map) e =
            (names ++ [m],
             match List.lookup m map with
             | none => map ++ [(m, mkServiceHealth m u)]
             | some h =>
               upsert map m (if h.healthUrl ≠ u then { h with healthUrl := u } else h)) := by
          simp only [usStep, he, hu, if_neg hempty]
        by_cases hm : m = n
        · subst hm
          have hcond : ¬ ((m = "" ∨ u = "") ∨ ¬ m = m) := fun hc =>
            hc.elim hempty (fun hx => hx rfl)
          have hkey : List.lookup m (usStep (names, map) e).2 =
              some (applyUrl (List.lookup m map) m u) := by
            rw [hstep]
            cases hlm : List.lookup m map with
            | none =>
              rw [lookup_append]
              rw [hlm]
              simp [List.lookup, applyUrl]
            | some h =>
              rw [lookup_upsert_self]
              by_cases hne : h.healthUrl ≠ u
              · rw [if_pos hne]
                rfl
              · rw [if_neg hne]
                have hequ : h.healthUrl = u := not_ne_iff.mp hne
                rw [show applyUrl (some h) m u = { h with healthUrl := u } from rfl]
                rw [← hequ]
          rw [List.foldl_cons, ih, hkey]
          have hlast : lastValidUrl (e :: rest) m =
              (match lastValidUrl rest m with
               | some u2 => some u2
               | none => some u) := by
            simp only [lastValidUrl, he, hu]
            cases lastValidUrl rest m with
            | none => rw [if_neg hcond]
            | some _ => rfl
          rw [hlast]
          cases lastValidUrl rest m with
          | none => rfl
          | some u2 =>
            exact congrArg some (applyUrl_twice (List.lookup m map) m u u2)
        · have hkey : List.lookup n (usStep (names, map) e).2 = List.lookup n map := by
            rw [hstep]
            cases hlm : List.lookup m map with
            | none =>
              rw [lookup_append]
              cases hln : List.lookup n map with
              | none =>
                have hb : (n == m) = false := by
                  simp [beq_iff_eq]; exact fun hx => hm hx.symm
                simp [List.lookup, hb]
              | some h => rfl
            | some h =>
              exact lookup_upsert_ne _ _ _ _ (fun hx => hm hx.symm)
          rw [List.foldl_cons, ih, hkey]
          rw [show lastValidUrl (e :: rest) n = lastValidUrl rest n by
            simp only [lastValidUrl, he, hu]
            cases lastValidUrl rest n with
            | none => simp [hm]
            | some _ => rfl]

/-- C10.  `update_services(L)` reconciles the monitor set: a service name
is monitored afterwards exactly when some entry of `L` with that name has
a non-empty name and health URL; a previously monitored service with no
such entry is removed together with its state; a retained service keeps
its status, consecutive-failure/success counters and name, with its
`health_url` set to the URL of the last valid entry for that name; a newly
added name gets a fresh UNKNOWN entry with that URL. -/
theorem updateServices_reconciles (old : List (String × ServiceHealth))
    (L : List SvcEntry) (n : String) :
    (List.lookup n (updateServices old L) =
      (match lastValidUrl L n with
       | some u => some (applyUrl (List.lookup n old) n u)
       | none => none)) ∧
    (∀ h h2 : ServiceHealth, List.lookup n old = some h →
      List.lookup n (updateServices old L) = some h2 →
      h2.status = h.status ∧ h2.consecutiveFailures = h.consecutiveFailures ∧
      h2.consecutiveSuccesses = h.consecutiveSuccesses ∧
      h2.serviceName = h.serviceName ∧ lastValidUrl L n = some h2.healthUrl) := by
  have part1 : List.lookup n (updateServices old L) =
      (match lastValidUrl L n with
       | some u => some (applyUrl (List.lookup n old) n u)
       | none => none) := by
    unfold updateServices
    rw [lookup_filter_mem]
    by_cases hmem : n ∈ (L.foldl usStep ([], old)).1
    · rw [if_pos hmem, usFold_lookup]
      rcases (usFold_names L [] old n).mp hmem with h | h
      · cases h
      · cases hres : lastValidUrl L n with
        | none => rw [hres] at h; cases h
        | some u => rfl
    · rw [if_neg hmem]
      cases hres : lastValidUrl L n with
      | none => rfl
      | some u =>
        exact absurd ((usFold_names L [] old n).mpr (Or.inr (by rw [hres]; rfl))) hmem
  refine ⟨part1, ?_⟩
  intro h h2 hold hnew
  rw [part1, hold] at hnew
  cases hres : lastValidUrl L n with
  | none => rw [hres] at hnew; cases hnew
  | some u =>
    rw [hres] at hnew
    have hh2 : h2 = { h with healthUrl := u } := (Option.some_injective _ hnew).symm
    rw [hh2]
    exact ⟨rfl, rfl, rfl, rfl, rfl⟩

/-- Previous monitor map of the C10 witness: `web` is UP with five
consecutive successes, `db` is freshly UNKNOWN. -/
def w10Old : List (String × ServiceHealth) :=
  [("web", { serviceName := "web", healthUrl := "http://a/", status := .up,
             consecutiveSuccesses := 5 }),
   ("db", mkServiceHealth "db" "http://b/")]

/-- New service list of the C10 witness: `web` with a changed URL, a new
`init-svc`, and an entry whose `health_url` is absent. -/
def w10L : List SvcEntry :=
  [{ name := some "web", healthUrl := some "http://a2/" },
   { name := some "init-svc", healthUrl := some "http://c/" },
   { name := some "bad" }]

/-- Witness for C10: `web` keeps UP and its counters with the new URL,
`db` and `bad` are gone, `init-svc` starts UNKNOWN. -/
theorem updateServices_reconciles_witness :
    List.lookup "web" (updateServices w10Old w10L) =
      some { serviceName := "web", healthUrl := "http://a2/", status := .up,
             consecutiveSuccesses := 5 } ∧
    List.lookup "db" (updateServices w10Old w10L) = none ∧
    List.lookup "init-svc" (updateServices w10Old w10L) =
      some (mkServiceHealth "init-svc" "http://c/") ∧
    List.lookup "bad" (updateServices w10Old w10L) = none := by
  refine ⟨?_, ?_, ?_, ?_⟩
  · rw [(updateServices_reconciles w10Old w10L "web").1]; decide
  · rw [(updateServices_reconciles w10Old w10L "db").1]; decide
  · rw [(updateServices_reconciles w10Old w10L "init-svc").1]; decide
  · rw [(updateServices_reconciles w10Old w10L "bad").1]; decide

end SbTraefik
